import Mathlib

/-
Verification development for the netauto-platform multi-vendor session and
command-execution engine (src/automation/network_automation.py,
src/automation/juniper_manager.py, src/automation/juniper_pyez.py).

Each Python function relevant to the checked claims is shallowly embedded as
an executable Lean definition.  Device and transport behaviour that lives
outside the engine (the Netmiko / PyEZ libraries, the device itself) is
abstracted as explicit oracle arguments: a function giving the outcome of
each send / connect attempt.  Python exceptions are modelled with
Except String, Python floats appear only as literal timing knobs and are
modelled as exact rationals (tenths).
-/

/-! ## String primitives

Python string operations used by the engine, modelled over Lean strings.
occursIn models the Python substring test (needle in hay); lowerStr models
str.lower over the ASCII range (all engine messages and tokens are ASCII);
strippedEndsWith models s.strip().endswith(c); takeStr models s[:n].
-/

def lowerChar (c : Char) : Char :=
  if 65 ≤ c.toNat ∧ c.toNat ≤ 90 then Char.ofNat (c.toNat + 32) else c

def lowerStr (s : String) : String := String.mk (s.toList.map lowerChar)

def leadsWith : List Char → List Char → Bool
  | [], _ => true
  | _ :: _, [] => false
  | a :: as, b :: bs => a == b && leadsWith as bs

def occursAux (needle : List Char) : List Char → Bool
  | [] => needle.isEmpty
  | c :: rest => leadsWith needle (c :: rest) || occursAux needle rest

def occursIn (needle hay : String) : Bool := occursAux needle.toList hay.toList

def isWs (c : Char) : Bool := c == ' ' || c == '\n' || c == '\t' || c == '\r'

def strippedEndsWith (s : String) (c : Char) : Bool :=
  match (s.toList.dropWhile isWs).reverse.dropWhile isWs with
  | [] => false
  | d :: _ => d == c

def takeStr (s : String) (n : Nat) : String := String.mk (s.toList.take n)

def joinSep (sep : String) : List String → String
  | [] => ""
  | [x] => x
  | x :: y :: xs => x ++ sep ++ joinSep sep (y :: xs)

/-! ## Batch Chunker slicing

Model of the slice loop of NetworkDeviceManager..._execute_commands_in_chunks
(network_automation.py lines 2488-2500):

  total_chunks = (len(commands) - 1) // chunk_size + 1
  for i in range(0, len(commands), chunk_size):
      chunk = commands[i:i + chunk_size]

chunkList reproduces the sequence of slices commands[i:i+size] for
i = 0, size, 2*size, ...; totalChunksPy is the Python total_chunks value,
computed with Python floor division (Int.fdiv), which is -1 // size + 1 = 0
for an empty batch.
-/

def chunkList : List α → Nat → List (List α)
  | [], _ => []
  | _ :: _, 0 => []
  | c :: cs, s + 1 =>
    (c :: cs).take (s + 1) :: chunkList ((c :: cs).drop (s + 1)) (s + 1)
termination_by cmds _ => cmds.length
decreasing_by
  simp only [List.length_drop, List.length_cons]
  omega

def totalChunksPy (k size : Nat) : Int := Int.fdiv ((k : Int) - 1) (size : Int) + 1

theorem chunkList_nil (size : Nat) : chunkList ([] : List α) size = [] := by
  cases size <;> simp [chunkList]

theorem chunkList_cons (cmds : List α) (size : Nat) (hc : cmds ≠ []) (hs : size ≠ 0) :
    chunkList cmds size = cmds.take size :: chunkList (cmds.drop size) size := by
  cases cmds with
  | nil => exact absurd rfl hc
  | cons c cs =>
    cases size with
    | zero => exact absurd rfl hs
    | succ s => rw [chunkList]

theorem chunkList_join_aux :
    ∀ (n : Nat) (cmds : List α), cmds.length ≤ n → (chunkList cmds 8).flatten = cmds := by
  intro n
  induction n with
  | zero =>
    intro cmds h
    have : cmds = [] := List.eq_nil_of_length_eq_zero (Nat.le_zero.mp h)
    subst this
    simp [chunkList_nil]
  | succ n ih =>
    intro cmds h
    by_cases hc : cmds = []
    · subst hc; simp [chunkList_nil]
    · rw [chunkList_cons cmds 8 hc (by omega)]
      have hlen : 0 < cmds.length := List.length_pos.mpr hc
      have : (cmds.drop 8).length ≤ n := by
        rw [List.length_drop]; omega
      simp only [List.flatten_cons]
      rw [ih (cmds.drop 8) this, List.take_append_drop]

theorem chunkList_join (cmds : List α) : (chunkList cmds 8).flatten = cmds :=
  chunkList_join_aux cmds.length cmds (Nat.le_refl _)

theorem chunkList_len_aux :
    ∀ (n : Nat) (cmds : List α), cmds.length ≤ n →
      (chunkList cmds 8).length = (cmds.length + 7) / 8 := by
  intro n
  induction n with
  | zero =>
    intro cmds h
    have : cmds = [] := List.eq_nil_of_length_eq_zero (Nat.le_zero.mp h)
    subst this
    simp [chunkList_nil]
  | succ n ih =>
    intro cmds h
    by_cases hc : cmds = []
    · subst hc; simp [chunkList_nil]
    · rw [chunkList_cons cmds 8 hc (by omega)]
      have hlen : 0 < cmds.length := List.length_pos.mpr hc
      have hdrop : (cmds.drop 8).length ≤ n := by
        rw [List.length_drop]; omega
      rw [List.length_cons, ih (cmds.drop 8) hdrop, List.length_drop]
      omega

theorem chunkList_length (cmds : List α) :
    (chunkList cmds 8).length = (cmds.length + 7) / 8 :=
  chunkList_len_aux cmds.length cmds (Nat.le_refl _)

theorem chunkList_getD_aux :
    ∀ (n : Nat) (cmds : List α) (j : Nat), cmds.length ≤ n →
      j < (chunkList cmds 8).length →
      (chunkList cmds 8).getD j [] = (cmds.drop (j * 8)).take 8 := by
  intro n
  induction n with
  | zero =>
    intro cmds j h hj
    have : cmds = [] := List.eq_nil_of_length_eq_zero (Nat.le_zero.mp h)
    subst this
    simp [chunkList_nil] at hj
  | succ n ih =>
    intro cmds j h hj
    by_cases hc : cmds = []
    · subst hc; simp [chunkList_nil] at hj
    · rw [chunkList_cons cmds 8 hc (by omega)] at hj ⊢
      cases j with
      | zero => simp
      | succ j =>
        have hlen : 0 < cmds.length := List.length_pos.mpr hc
        have hdrop : (cmds.drop 8).length ≤ n := by
          rw [List.length_drop]; omega
        have hj2 : j < (chunkList (cmds.drop 8) 8).length := by
          simpa using hj
        simp only [List.getD_cons_succ]
        rw [ih (cmds.drop 8) j hdrop hj2, List.drop_drop]
        have h8 : 8 + j * 8 = (j + 1) * 8 := by ring
        rw [h8]

theorem totalChunksPy_eq (k : Nat) :
    totalChunksPy k 8 = ((k + 7) / 8 : Nat) := by
  unfold totalChunksPy
  rw [Int.fdiv_eq_ediv _ (by norm_num)]
  omega

/-- C1: for a batch of size k at least 1 and chunkSize 8, the Batch Chunker
computes ceil(k/8) as total chunk count (both via the slice list and via the
Python total_chunks formula), iterates over consecutive slices
commands[i:i+8] whose in-order concatenation equals the original batch (no
overlap, no gaps), and a batch of 20 commands yields chunks of sizes
8, 8, 4. -/
theorem chunker_partition (cmds : List String) (h : cmds ≠ []) :
    (chunkList cmds 8).length = (cmds.length + 7) / 8 ∧
    totalChunksPy cmds.length 8 = ((cmds.length + 7) / 8 : Nat) ∧
    (chunkList cmds 8).flatten = cmds ∧
    (∀ j, j < (chunkList cmds 8).length →
      (chunkList cmds 8).getD j [] = (cmds.drop (j * 8)).take 8) ∧
    (cmds.length = 20 → (chunkList cmds 8).map List.length = [8, 8, 4]) := by
  refine ⟨chunkList_length cmds,
    totalChunksPy_eq cmds.length,
    chunkList_join cmds,
    fun j hj => chunkList_getD_aux cmds.length cmds j (Nat.le_refl _) hj,
    fun h20 => ?_⟩
  have h1 : cmds ≠ [] := h
  rw [chunkList_cons cmds 8 h1 (by omega)]
  have hd1 : (cmds.drop 8).length = 12 := by rw [List.length_drop]; omega
  have h2 : cmds.drop 8 ≠ [] := by
    intro hc; rw [hc] at hd1; simp at hd1
  rw [chunkList_cons (cmds.drop 8) 8 h2 (by omega)]
  have hd2 : ((cmds.drop 8).drop 8).length = 4 := by
    rw [List.length_drop, hd1]
  have h3 : (cmds.drop 8).drop 8 ≠ [] := by
    intro hc; rw [hc] at hd2; simp at hd2
  rw [chunkList_cons ((cmds.drop 8).drop 8) 8 h3 (by omega)]
  have hd3 : (((cmds.drop 8).drop 8).drop 8).length = 0 := by
    rw [List.length_drop, hd2]
  have h4 : ((cmds.drop 8).drop 8).drop 8 = [] :=
    List.eq_nil_of_length_eq_zero hd3
  rw [h4, chunkList_nil]
  simp [List.length_take, h20, hd1, hd2]

/-- Witness for C1 at a concrete batch of 20 commands. -/
theorem chunker_partition_witness :
    (chunkList (List.replicate 20 "set vlan 10") 8).flatten =
      List.replicate 20 "set vlan 10" ∧
    (chunkList (List.replicate 20 "set vlan 10") 8).map List.length = [8, 8, 4] :=
  ⟨(chunker_partition (List.replicate 20 "set vlan 10") (by simp)).2.2.1,
   (chunker_partition (List.replicate 20 "set vlan 10") (by simp)).2.2.2.2 (by simp)⟩

/-! ## Failure classification and retry loops

Models of the two retry decision points.

execute_config_commands (network_automation.py lines 286-305) retries an
attempt, with a 2 second pause and a reconnection at the top of the next
iteration, exactly when the lowercased error message holds one of
"socket is closed", "connection", "broken pipe", "timeout" and fewer than
max_retries = 2 retries have been used; otherwise it raises
NetworkAutomationError("Configuration failed: ...") at once.

The per-chunk loop of _execute_commands_in_chunks (lines 2506-2533) uses the
same shape with max_chunk_retries = 3 but its token list omits "timeout";
on a non-retried error the chunk is recorded as failed instead of raising.

Each loop is embedded with the device call abstracted as an oracle att
giving the outcome of attempt number n.  The returned Nat counts the
retries taken, each of which is one backoff sleep plus one reconnection.
-/

def isTransientBatch (msg : String) : Bool :=
  let m := lowerStr msg
  occursIn "socket is closed" m || occursIn "connection" m ||
    occursIn "broken pipe" m || occursIn "timeout" m

def isTransientChunk (msg : String) : Bool :=
  let m := lowerStr msg
  occursIn "socket is closed" m || occursIn "connection" m ||
    occursIn "broken pipe" m

def execConfigRetry (att : Nat → Except String String) : Except String String × Nat :=
  match att 0 with
  | Except.ok out => (Except.ok out, 0)
  | Except.error e0 =>
    if isTransientBatch e0 then
      match att 1 with
      | Except.ok out => (Except.ok out, 1)
      | Except.error e1 =>
        if isTransientBatch e1 then
          match att 2 with
          | Except.ok out => (Except.ok out, 2)
          | Except.error e2 => (Except.error ("Configuration failed: " ++ e2), 2)
        else (Except.error ("Configuration failed: " ++ e1), 1)
    else (Except.error ("Configuration failed: " ++ e0), 0)

def chunkRetry (att : Nat → Except String String) : Bool × String × Nat :=
  match att 0 with
  | Except.ok out => (true, out, 0)
  | Except.error e0 =>
    if isTransientChunk e0 then
      match att 1 with
      | Except.ok out => (true, out, 1)
      | Except.error e1 =>
        if isTransientChunk e1 then
          match att 2 with
          | Except.ok out => (true, out, 2)
          | Except.error e2 => (false, e2, 2)
        else (false, e1, 1)
    else (false, e0, 0)

/-- C3 counterexample: an error whose message is exactly "timeout" is a
timeout-shaped message (the batch-level classifier accepts it), yet the
per-chunk retry loop does not retry it: the chunk is marked failed with zero
retries even though the next attempt would have succeeded.  This refutes the
claim that every retry decision point retries timeout messages. -/
theorem chunk_timeout_not_retried :
    chunkRetry (fun n => if n = 0 then Except.error "timeout" else Except.ok "done")
      = (false, "timeout", 0) ∧
    isTransientBatch "timeout" = true ∧
    isTransientChunk "timeout" = false := by
  refine ⟨by decide, by decide, by decide⟩

/-- C3 as amended: at the per-batch retry decision point an error is retried
with backoff and reconnection iff its lowercased message holds
"socket is closed", "connection", "broken pipe" or "timeout"; at the
per-chunk decision point iff it holds one of the first three ("timeout" is
not in the token list of that loop).  A terminal error is surfaced at once: the
batch loop raises "Configuration failed: ..." with zero retries (hence zero
backoff sleeps and zero reconnections), the chunk loop records the failure
with zero retries. -/
theorem retry_classification (att : Nat → Except String String) (e : String)
    (h0 : att 0 = Except.error e) :
    (0 < (execConfigRetry att).2 ↔ isTransientBatch e = true) ∧
    (0 < (chunkRetry att).2.2 ↔ isTransientChunk e = true) ∧
    (isTransientBatch e = false →
      execConfigRetry att = (Except.error ("Configuration failed: " ++ e), 0)) ∧
    (isTransientChunk e = false → chunkRetry att = (false, e, 0)) := by
  refine ⟨?_, ?_, ?_, ?_⟩
  · unfold execConfigRetry
    rw [h0]
    cases hb : isTransientBatch e
    · simp [hb]
    · cases h1 : att 1 with
      | ok out => simp [hb]
      | error e1 =>
        cases hb1 : isTransientBatch e1
        · simp [hb, hb1]
        · cases h2 : att 2 <;> simp [hb, hb1]
  · unfold chunkRetry
    rw [h0]
    cases hb : isTransientChunk e
    · simp [hb]
    · cases h1 : att 1 with
      | ok out => simp [hb]
      | error e1 =>
        cases hb1 : isTransientChunk e1
        · simp [hb, hb1]
        · cases h2 : att 2 <;> simp [hb, hb1]
  · intro hb
    unfold execConfigRetry
    rw [h0]
    simp [hb]
  · intro hb
    unfold chunkRetry
    rw [h0]
    simp [hb]

/-- Witness for C3 as amended: a device-reported "invalid input" error is
terminal in both loops. -/
theorem retry_classification_witness :
    execConfigRetry (fun _ => Except.error "invalid input")
      = (Except.error ("Configuration failed: " ++ "invalid input"), 0) ∧
    chunkRetry (fun _ => Except.error "invalid input") = (false, "invalid input", 0) := by
  have h := retry_classification (fun _ => Except.error "invalid input") "invalid input" rfl
  exact ⟨h.2.2.1 (by decide), h.2.2.2 (by decide)⟩

/-! ## Health and Reconnection Manager

Model of NetworkDeviceManager._reconnect_if_needed (network_automation.py
lines 227-273).  If the health check passes the function returns True at
once.  Otherwise it loops over attempt = 0, 1, 2: it sleeps 2^attempt
seconds when attempt > 0, reopens the transport (which may raise), and
health-checks the new session; the first healthy session returns True.  An
exception is swallowed except on the last attempt, where it is re-raised as
NetworkAutomationError("Connection lost and reconnection failed after 3
attempts: ..."); a last attempt whose health check fails falls out of the
loop and returns False.

Each attempt is abstracted as an oracle value: raises (the reopen threw),
unhealthy (reopened but the health check failed), or healthy.  attempts
counts attempts started, sleepSecs sums the backoff waits.
-/

inductive AttemptOutcome
  | raises (msg : String)
  | unhealthy
  | healthy
deriving DecidableEq

structure ReconnectRun where
  result : Except String Bool
  attempts : Nat
  sleepSecs : Nat

def reconnectAttempts (att : Nat → AttemptOutcome) : ReconnectRun :=
  match att 0 with
  | AttemptOutcome.healthy => ⟨Except.ok true, 1, 0⟩
  | _ =>
    match att 1 with
    | AttemptOutcome.healthy => ⟨Except.ok true, 2, 2⟩
    | _ =>
      match att 2 with
      | AttemptOutcome.healthy => ⟨Except.ok true, 3, 6⟩
      | AttemptOutcome.raises e =>
        ⟨Except.error ("Connection lost and reconnection failed after 3 attempts: " ++ e),
          3, 6⟩
      | AttemptOutcome.unhealthy => ⟨Except.ok false, 3, 6⟩

def reconnectIfNeeded (healthyNow : Bool) (att : Nat → AttemptOutcome) : ReconnectRun :=
  if healthyNow then ⟨Except.ok true, 0, 0⟩ else reconnectAttempts att

/-- C2: the reconnection manager makes at most 3 attempts; the total backoff
of a run that started n attempts is 2^n - 2 seconds, i.e. 2^a seconds are
slept before attempt a for a at least 1 and nothing before attempt 0; the
first attempt that yields a healthy session returns at once; and for a
transport that raises exactly once and then yields a healthy session, the
run succeeds with exactly 2 attempts and exactly 2 seconds of backoff (so at
least 2 and under 4). -/
theorem reconnect_backoff (att : Nat → AttemptOutcome) (e : String)
    (h0 : att 0 = AttemptOutcome.raises e) (h1 : att 1 = AttemptOutcome.healthy) :
    (∀ f, (reconnectIfNeeded false f).attempts ≤ 3) ∧
    (∀ f, (reconnectIfNeeded false f).sleepSecs
        = 2 ^ (reconnectIfNeeded false f).attempts - 2) ∧
    (∀ f, f 0 = AttemptOutcome.healthy →
      reconnectIfNeeded false f = ⟨Except.ok true, 1, 0⟩) ∧
    reconnectIfNeeded false att = ⟨Except.ok true, 2, 2⟩ ∧
    2 ≤ (reconnectIfNeeded false att).sleepSecs ∧
    (reconnectIfNeeded false att).sleepSecs < 4 := by
  have hrun : reconnectIfNeeded false att = ⟨Except.ok true, 2, 2⟩ := by
    unfold reconnectIfNeeded reconnectAttempts
    rw [h0, h1]
    simp
  refine ⟨?_, ?_, ?_, hrun, by rw [hrun], by rw [hrun]; decide⟩
  · intro f
    unfold reconnectIfNeeded reconnectAttempts
    cases hf0 : f 0 <;> cases hf1 : f 1 <;> cases hf2 : f 2 <;> simp
  · intro f
    unfold reconnectIfNeeded reconnectAttempts
    cases hf0 : f 0 <;> cases hf1 : f 1 <;> cases hf2 : f 2 <;> simp
  · intro f hf
    unfold reconnectIfNeeded reconnectAttempts
    rw [hf]
    simp

/-- Witness for C2 at a transport that raises once then is healthy. -/
theorem reconnect_backoff_witness :
    reconnectIfNeeded false
        (fun n => if n = 0 then AttemptOutcome.raises "socket is closed"
          else AttemptOutcome.healthy)
      = ⟨Except.ok true, 2, 2⟩ :=
  (reconnect_backoff
    (fun n => if n = 0 then AttemptOutcome.raises "socket is closed"
      else AttemptOutcome.healthy)
    "socket is closed" rfl rfl).2.2.2.1

/-! ## Batch Chunker aggregation

Model of the body of _execute_commands_in_chunks (network_automation.py
lines 2488-2568).  Each chunk is executed through the per-chunk retry loop
chunkRetry with the device call abstracted as an oracle att, where att n is
the outcome function of chunk number n (1-based, outcome of attempt a).  A
successful chunk contributes "--- CHUNK n ---" plus its output, a failed one
"--- CHUNK n FAILED ---" plus the error, and the loop never raises and never
stops early.  After the loop the summary computes
success_rate = ((total_chunks - failed_chunks) / total_chunks) * 100,
which in Python raises ZeroDivisionError when total_chunks = 0; rateTenths
models the float percentage formatted with one decimal as the exact rational
rounded to tenths.  The inter-chunk pauses, health probes and recovery
reconnects (lines 2508-2515, 2538-2563) change no recorded output and are
absorbed into the oracle.
-/

def chunkEntry (n : Nat) (r : Bool × String × Nat) : String :=
  if r.1 then "--- CHUNK " ++ toString n ++ " ---\n" ++ r.2.1
  else "--- CHUNK " ++ toString n ++ " FAILED ---\nError: " ++ r.2.1

def chunkResults (att : Nat → Nat → Except String String) (numChunks : Nat) :
    List String :=
  (List.range numChunks).map (fun j => chunkEntry (j + 1) (chunkRetry (att (j + 1))))

def failedChunksCount (att : Nat → Nat → Except String String) (numChunks : Nat) : Nat :=
  ((List.range numChunks).filter (fun j => !(chunkRetry (att (j + 1))).1)).length

def rateTenths (succ total : Nat) : Nat := (succ * 1000 * 2 + total) / (total * 2)

def rateStr (succ total : Nat) : String :=
  toString (rateTenths succ total / 10) ++ "." ++ toString (rateTenths succ total % 10)

def summaryStr (total failed : Nat) : String :=
  "\n\n=== EXECUTION SUMMARY ===\nTotal chunks: " ++ toString total ++
    "\nSuccessful: " ++ toString (total - failed) ++
    "\nFailed: " ++ toString failed ++
    "\nSuccess rate: " ++ rateStr (total - failed) total ++ "%"

def execChunks (att : Nat → Nat → Except String String) (cmds : List String)
    (chunkSize : Nat) : Except String String :=
  let n := (chunkList cmds chunkSize).length
  if n = 0 then Except.error "ZeroDivisionError: division by zero"
  else Except.ok (joinSep "\n\n" (chunkResults att n)
    ++ summaryStr n (failedChunksCount att n))

def chunk2FailsAtt (c : Nat) (_a : Nat) : Except String String :=
  if c = 2 then Except.error "connection reset by peer" else Except.ok "OK"

/-- C6: for every nonempty batch the Batch Chunker returns an aggregate
report without raising: one labelled entry per chunk (a chunk whose retry
loop failed is recorded with the FAILED label and its error, and the
remaining chunks still run), and the text ends with the summary giving the
total, successful and failed chunk counts and the success percentage.  At a
concrete 3-chunk batch whose second chunk fails transiently through its
whole retry budget, the output holds the chunk 1 and 3 outputs, marks chunk
2 failed, and reports 2 successful, 1 failed, 66.7 percent. -/
theorem chunk_failure_recorded (att : Nat → Nat → Except String String)
    (cmds : List String) (h : cmds ≠ []) :
    execChunks att cmds 8
      = Except.ok (joinSep "\n\n" (chunkResults att (chunkList cmds 8).length)
          ++ summaryStr (chunkList cmds 8).length
              (failedChunksCount att (chunkList cmds 8).length)) ∧
    (chunkResults att (chunkList cmds 8).length).length = (chunkList cmds 8).length ∧
    (∀ j err retries, j < (chunkList cmds 8).length →
      chunkRetry (att (j + 1)) = (false, err, retries) →
      (chunkResults att (chunkList cmds 8).length).getD j ""
        = "--- CHUNK " ++ toString (j + 1) ++ " FAILED ---\nError: " ++ err) ∧
    execChunks chunk2FailsAtt (List.replicate 17 "display version") 8
      = Except.ok ("--- CHUNK 1 ---\nOK\n\n--- CHUNK 2 FAILED ---\nError: connection reset by peer\n\n--- CHUNK 3 ---\nOK\n\n=== EXECUTION SUMMARY ===\nTotal chunks: 3\nSuccessful: 2\nFailed: 1\nSuccess rate: 66.7%") := by
  have hn : (chunkList cmds 8).length ≠ 0 := by
    rw [chunkList_length]
    have : 0 < cmds.length := List.length_pos.mpr h
    omega
  refine ⟨?_, ?_, ?_, ?_⟩
  · unfold execChunks
    simp [hn]
  · simp [chunkResults]
  · intro j err retries hj hr
    simp only [chunkResults]
    rw [List.getD_eq_getElem?_getD]
    rw [List.getElem?_map]
    simp [List.getElem?_range hj, hr, chunkEntry]
  · have hlen : (chunkList (List.replicate 17 "display version") 8).length = 3 := by
      rw [chunkList_length]
      simp
    simp only [execChunks, hlen]
    rfl

/-- Witness for C6 at the concrete 3-chunk batch with chunk 2 failing. -/
theorem chunk_failure_recorded_witness :
    execChunks chunk2FailsAtt (List.replicate 17 "display version") 8
      = Except.ok ("--- CHUNK 1 ---\nOK\n\n--- CHUNK 2 FAILED ---\nError: connection reset by peer\n\n--- CHUNK 3 ---\nOK\n\n=== EXECUTION SUMMARY ===\nTotal chunks: 3\nSuccessful: 2\nFailed: 1\nSuccess rate: 66.7%") :=
  (chunk_failure_recorded chunk2FailsAtt (List.replicate 17 "display version")
    (by simp)).2.2.2

/-- C10: for the empty batch the Python total_chunks formula gives 0, no
chunk is executed, and the chunker raises ZeroDivisionError while computing
the success rate instead of returning a report; every batch with at least
one command yields a report and avoids the division by zero. -/
theorem empty_batch_divzero :
    totalChunksPy 0 8 = 0 ∧
    chunkList ([] : List String) 8 = [] ∧
    (∀ att, execChunks att [] 8 = Except.error "ZeroDivisionError: division by zero") ∧
    (∀ att (cmds : List String), cmds ≠ [] →
      ∃ out, execChunks att cmds 8 = Except.ok out) := by
  refine ⟨by decide, by simp [chunkList_nil], ?_, ?_⟩
  · intro att
    unfold execChunks
    simp [chunkList_nil]
  · intro att cmds h
    have hn : (chunkList cmds 8).length ≠ 0 := by
      rw [chunkList_length]
      have : 0 < cmds.length := List.length_pos.mpr h
      omega
    refine ⟨joinSep "\n\n" (chunkResults att (chunkList cmds 8).length)
      ++ summaryStr (chunkList cmds 8).length
          (failedChunksCount att (chunkList cmds 8).length), ?_⟩
    unfold execChunks
    simp [hn]

/-- Witness for C10: a singleton batch avoids the division by zero. -/
theorem empty_batch_divzero_witness :
    ∃ out, execChunks (fun _ _ => Except.ok "done") ["display version"] 8
      = Except.ok out :=
  empty_batch_divzero.2.2.2 (fun _ _ => Except.ok "done") ["display version"] (by simp)

/-! ## Interactive Command Driver confirmation handling

Model of the per-command confirmation loop of
_send_huawei_interactive_commands (network_automation.py lines 687-724):

  confirmation_tokens = ["[y/n]", " y/n ", "please choose \x27yes\x27 or \x27no\x27",
                         "continue?", "are you sure", "confirm"]
  loop_guard = 0
  last_chunk = out
  while last_chunk and any(tok in last_chunk.lower() for tok in confirmation_tokens)
        and loop_guard < 3:
      last_chunk = send_command_timing("Y")
      out = (out or "") + last_chunk
      loop_guard += 1

The loop is embedded with the three possible replies to "Y" passed
explicitly (the guard allows at most three sends); out0 is the raw output of
the command itself.  The returned Nat is the number of affirmative "Y"
responses sent.
-/

def confirmationTokens : List String :=
  ["[y/n]", " y/n ", "please choose \x27yes\x27 or \x27no\x27", "continue?",
    "are you sure", "confirm"]

def hasConfirmToken (s : String) : Bool :=
  confirmationTokens.any (fun tok => occursIn tok (lowerStr s))

def confirmLoopAux (replies : List String) (last out : String) (sent : Nat) :
    String × Nat :=
  match replies with
  | [] => (out, sent)
  | r :: rest =>
    if last ≠ "" ∧ hasConfirmToken last = true then
      confirmLoopAux rest r (out ++ r) (sent + 1)
    else (out, sent)

def confirmLoop (r0 r1 r2 : String) (out0 : String) : String × Nat :=
  confirmLoopAux [r0, r1, r2] out0 out0 0

/-- C4 counterexample: a response that names an overwrite but carries none of
the coded tokens receives no affirmative response, although "overwrite" is
in the token set the claim states (the "overwrite" token exists only in the
save path of _fast_huawei_commit_save, not in the interactive driver).  This
refutes the claimed token set. -/
theorem interactive_overwrite_not_matched :
    occursIn "overwrite" (lowerStr "The file will be overwritten. Overwrite it now!") = true ∧
    hasConfirmToken "The file will be overwritten. Overwrite it now!" = false ∧
    confirmLoop "Y sent" "" "" "The file will be overwritten. Overwrite it now!"
      = ("The file will be overwritten. Overwrite it now!", 0) := by
  refine ⟨by decide, by decide, by decide⟩

/-- C4 as amended: the driver scans responses case-insensitively against the
fixed token set "[y/n]", " y/n " (space-delimited), the quoted
please-choose-yes-or-no prompt, "continue?", "are you sure", "confirm" (no "overwrite"
token); each detection sends exactly one affirmative response and appends
its output; at most 3 affirmatives are ever sent per command; a token-free
response receives none; and a response containing "overwrite? [y/n]"
(matched through its "[y/n]" token) followed by a clean reply receives
exactly one affirmative. -/
theorem confirm_loop_bounded (r0 r1 r2 out0 : String) :
    (confirmLoop r0 r1 r2 out0).2 ≤ 3 ∧
    (hasConfirmToken out0 = false → confirmLoop r0 r1 r2 out0 = (out0, 0)) ∧
    (out0 ≠ "" → hasConfirmToken out0 = true → hasConfirmToken r0 = false →
      confirmLoop r0 r1 r2 out0 = (out0 ++ r0, 1)) ∧
    hasConfirmToken "overwrite? [y/n]" = true := by
  refine ⟨?_, ?_, ?_, by decide⟩
  · simp only [confirmLoop, confirmLoopAux]
    split_ifs <;> simp
  · intro hf
    simp [confirmLoop, confirmLoopAux, hf]
  · intro hne ht hr0
    simp [confirmLoop, confirmLoopAux, hne, ht, hr0]

/-- Witness for C4 as amended at the response "overwrite? [y/n]". -/
theorem confirm_loop_bounded_witness :
    confirmLoop "Done." "" "" "overwrite? [y/n]" = ("overwrite? [y/n]" ++ "Done.", 1) :=
  (confirm_loop_bounded "Done." "" "" "overwrite? [y/n]").2.2.1
    (by decide) (by decide) (by decide)

/-! ## Configuration-mode entry

Model of _fast_enter_huawei_config (network_automation.py lines 404-445).
The function reads the current prompt; if it already ends in "]" (after
strip) it returns at once.  Otherwise it sends "system-view" (output
entryOut), appends one confirmation reply when a confirmation token is in
the lowercased output, raises NetworkAutomationError when the resulting text
holds one of the case-sensitive markers "Error", "Unrecognized", "Invalid",
and otherwise merely logs a warning when the fresh prompt does not end in
"]" and returns normally ("Still continue" in the source), after which
_execute_huawei_config (lines 354-402) sends the whole batch; when the entry
raises, the except branch of _execute_huawei_config falls back to Netmiko
send_config_set, which also sends the batch.
-/

def entryConfirmTokens : List String :=
  ["[y/n]", " y/n ", "please choose \x27yes\x27 or \x27no\x27", "confirm",
    "are you sure"]

def errorMarkers : List String := ["Error", "Unrecognized", "Invalid"]

def entryResult (entryOut confirmReply : String) : String :=
  if entryConfirmTokens.any (fun tok => occursIn tok (lowerStr entryOut)) then
    entryOut ++ confirmReply
  else entryOut

inductive EnterConfigOutcome
  | alreadyIn
  | entered (promptVerified : Bool)
  | failed (msg : String)
deriving DecidableEq

def fastEnterHuaweiConfig (curPrompt entryOut confirmReply newPrompt : String) :
    EnterConfigOutcome :=
  if strippedEndsWith curPrompt ']' then EnterConfigOutcome.alreadyIn
  else if errorMarkers.any (fun m => occursIn m (entryResult entryOut confirmReply)) then
    EnterConfigOutcome.failed
      ("System-view command failed: " ++ takeStr (entryResult entryOut confirmReply) 200)
  else EnterConfigOutcome.entered (strippedEndsWith newPrompt ']')

def sendsBatchAfterEnter : EnterConfigOutcome → Bool
  | EnterConfigOutcome.failed _ => false
  | _ => true

/-- C5 counterexample: after sending the mode-entry token with a clean
output, a fresh prompt that does not end in "]" (here the user-view prompt
"HW rangle") leaves the driver in the entered state with the verification
flag false rather than failing, and the interactive batch send still runs.
This refutes the claim that a prompt-shape mismatch is a terminal error that
stops the batch. -/
theorem enter_config_mismatch_proceeds :
    fastEnterHuaweiConfig "<HW>"
        "Enter system view, return user view with Ctrl+Z." "" "<HW>"
      = EnterConfigOutcome.entered false ∧
    sendsBatchAfterEnter (EnterConfigOutcome.entered false) = true := by
  refine ⟨by decide, by decide⟩

/-- C5 as amended: entering configuration mode fails with a terminal error
exactly when the mode-entry output (with any confirmation reply appended)
holds one of the markers "Error", "Unrecognized", "Invalid"; the shape of
the resulting prompt is only recorded (a mismatch logs a warning), never
turned into an error, and the driver proceeds to send the batch. -/
theorem enter_config_error_markers (cp eo cr np : String)
    (hp : strippedEndsWith cp ']' = false)
    (he : errorMarkers.any (fun m => occursIn m (entryResult eo cr)) = false) :
    fastEnterHuaweiConfig cp eo cr np
      = EnterConfigOutcome.entered (strippedEndsWith np ']') ∧
    sendsBatchAfterEnter (fastEnterHuaweiConfig cp eo cr np) = true ∧
    (∀ m, fastEnterHuaweiConfig cp eo cr np ≠ EnterConfigOutcome.failed m) := by
  have hval : fastEnterHuaweiConfig cp eo cr np
      = EnterConfigOutcome.entered (strippedEndsWith np ']') := by
    unfold fastEnterHuaweiConfig
    simp [hp, he]
  refine ⟨hval, by rw [hval]; rfl, by intro m; rw [hval]; intro hc; cases hc⟩

/-- Witness for C5 as amended at a mode entry whose fresh prompt does not
end in a right bracket. -/
theorem enter_config_error_markers_witness :
    fastEnterHuaweiConfig "<HW>" "system-view" "" "<HW>"
      = EnterConfigOutcome.entered (strippedEndsWith "<HW>" ']') :=
  (enter_config_error_markers "<HW>" "system-view" "" "<HW>"
    (by decide) (by decide)).1

/-! ## Transactional Command Driver

Model of JuniperDeviceManager.execute_config_commands
(juniper_manager.py lines 43-47) over JuniperPyEZDevice.load_set and commit
(juniper_pyez.py lines 29-36):

  diff = self.juniper_dev.load_set(commands)
  commit_result = self.juniper_dev.commit()
  return f"Diff:\n{diff}\n\nCommit:\n{commit_result}"

The PyEZ calls are abstracted as their outcomes: loadRes is the diff or the
load error, commitRes the commit output or the CommitError.  A Python
exception from either call propagates unchanged out of the method (nothing
wraps it), which the model renders as returning that Except.error.
-/

def juniperExecuteConfig (loadRes commitRes : Except String String) :
    Except String String :=
  match loadRes with
  | Except.error e => Except.error e
  | Except.ok diff =>
    match commitRes with
    | Except.error e => Except.error e
    | Except.ok c => Except.ok ("Diff:\n" ++ diff ++ "\n\nCommit:\n" ++ c)

/-- C7 counterexample: when the commit fails, the propagated error is the
commit error alone; the computed diff does not occur in it, refuting the
claim that the terminal error message holds both the diff and the commit
error. -/
theorem juniper_commit_error_lacks_diff :
    juniperExecuteConfig (Except.ok "+ set system host-name leaf1")
        (Except.error "CommitError: commit check failed")
      = Except.error "CommitError: commit check failed" ∧
    occursIn "+ set system host-name leaf1" "CommitError: commit check failed"
      = false := by
  refine ⟨rfl, by decide⟩

/-- C7 as amended: the Juniper path loads the whole batch as one set-format
changeset and computes the diff first, then commits; on success the returned
output holds the diff followed by the commit result; a commit failure
surfaces as a single terminal error carrying only the commit error (the diff
is lost); a load failure propagates likewise. -/
theorem juniper_config_flow :
    (∀ diff c, juniperExecuteConfig (Except.ok diff) (Except.ok c)
      = Except.ok ("Diff:\n" ++ diff ++ "\n\nCommit:\n" ++ c)) ∧
    (∀ diff e, juniperExecuteConfig (Except.ok diff) (Except.error e)
      = Except.error e) ∧
    (∀ e r, juniperExecuteConfig (Except.error e) r = Except.error e) :=
  ⟨fun _ _ => rfl, fun _ _ => rfl, fun _ _ => rfl⟩

/-! ## Session close

Models of the two close operations named by the claim.

JuniperPyEZDevice.disconnect (juniper_pyez.py lines 22-27) guards its
dev.close() call with try/except: pass, so every teardown outcome is
swallowed; dev is None when never connected.  The teardown behaviour of the
underlying transport is abstracted as an Except String Unit value.

NetworkDeviceManager.disconnect (network_automation.py lines 149-155)
dispatches to the Juniper driver when one is installed; otherwise, when a
Netmiko connection object exists, it calls self.connection.disconnect()
with no exception guard, so a teardown failure propagates to the caller.
-/

def juniperDisconnect (dev : Option (Except String Unit)) : Except String Unit :=
  match dev with
  | none => Except.ok ()
  | some (Except.ok _) => Except.ok ()
  | some (Except.error _) => Except.ok ()

def managerDisconnect (juniperDriver : Option (Option (Except String Unit)))
    (connClose : Option (Except String Unit)) : Except String Unit :=
  match juniperDriver with
  | some dev => juniperDisconnect dev
  | none =>
    match connClose with
    | some r => r
    | none => Except.ok ()

/-- C8 counterexample: on the Netmiko path a teardown that raises propagates
out of NetworkDeviceManager.disconnect, refuting the claim that the close
operation never raises. -/
theorem manager_disconnect_can_raise :
    managerDisconnect none (some (Except.error "Socket is closed"))
      = Except.error "Socket is closed" := rfl

/-- C8 as amended: the Juniper driver close and the manager close on the
Juniper path swallow every teardown failure and never raise, and closing
with no connection object is a no-op; but on the Netmiko path the manager
close propagates whatever the underlying disconnect does, including a
raised teardown error. -/
theorem disconnect_paths :
    (∀ dev, juniperDisconnect dev = Except.ok ()) ∧
    (∀ dev c, managerDisconnect (some dev) c = Except.ok ()) ∧
    (∀ r, managerDisconnect none (some r) = r) ∧
    managerDisconnect none none = Except.ok () := by
  have hj : ∀ dev, juniperDisconnect dev = Except.ok () := by
    intro dev
    rcases dev with _ | r
    · rfl
    · rcases r with r | r <;> rfl
  refine ⟨hj, fun dev c => ?_, fun r => rfl, rfl⟩
  show juniperDisconnect dev = Except.ok ()
  exact hj dev

/-! ## Device parameter map

Model of NetworkDeviceManager.__init__ and _enhance_connection_params
(network_automation.py lines 54-95).  The constructor stores the very dict
object the caller passed (self.device_params = device_params) and then
mutates it in place, so enhanceConnectionParams below is the state of the
descriptor map of the caller after construction.  Python dict values appearing
here are ints, bools, strings and the float delay factors; floats are
modelled exactly in tenths (pTenths 5 is 0.5, pTenths 10 is 1.0).  The
insertion-ordered dict is modelled as a key-unique association list:
setdefault appends a missing key at the end, assignment updates in place or
appends, pop removes the key, and get/in follow Python semantics.
-/

inductive PVal
  | pInt (n : Int)
  | pBool (b : Bool)
  | pStr (s : String)
  | pTenths (t : Nat)
deriving DecidableEq

abbrev ParamMap := List (String × PVal)

def dictGet : ParamMap → String → Option PVal
  | [], _ => none
  | (k2, v) :: rest, k => if k2 = k then some v else dictGet rest k

def dictContains (d : ParamMap) (k : String) : Bool := (dictGet d k).isSome

def dictSet : ParamMap → String → PVal → ParamMap
  | [], k, v => [(k, v)]
  | (k2, v2) :: rest, k, v =>
    if k2 = k then (k, v) :: rest else (k2, v2) :: dictSet rest k v

def dictSetdefault (d : ParamMap) (k : String) (v : PVal) : ParamMap :=
  if dictContains d k then d else d ++ [(k, v)]

def dictPop (d : ParamMap) (k : String) : ParamMap :=
  d.filter (fun p => p.1 != k)

def pyTruthy : PVal → Bool
  | PVal.pInt n => n != 0
  | PVal.pBool b => b
  | PVal.pStr s => s != ""
  | PVal.pTenths t => t != 0

def deviceTypeOf (d : ParamMap) : String :=
  match dictGet d "device_type" with
  | some (PVal.pStr s) => s
  | _ => ""

def enhanceBase (d : ParamMap) : ParamMap :=
  let d4 := dictSetdefault (dictSetdefault (dictSetdefault (dictSetdefault d
    "timeout" (PVal.pInt 20)) "conn_timeout" (PVal.pInt 10)) "fast_cli"
    (PVal.pBool true)) "global_delay_factor" (PVal.pTenths 5)
  if pyTruthy ((dictGet d4 "debug_mode").getD (PVal.pBool false)) then d4
  else dictPop d4 "session_log"

def enhanceHuawei (d : ParamMap) : ParamMap :=
  let d7 := dictSet (dictSetdefault d "global_delay_factor" (PVal.pTenths 10))
    "fast_cli" (PVal.pBool false)
  if dictContains d7 "secret" = false ∧ dictContains d7 "enable_password" = false then
    match dictGet d7 "password" with
    | some pw => dictSet d7 "secret" pw
    | none => d7
  else d7

def enhanceCisco (d : ParamMap) : ParamMap :=
  dictSetdefault (dictSetdefault d "global_delay_factor" (PVal.pTenths 5))
    "fast_cli" (PVal.pBool true)

def enhanceConnectionParams (d : ParamMap) : ParamMap :=
  if occursIn "huawei" (deviceTypeOf d) then enhanceHuawei (enhanceBase d)
  else if occursIn "cisco" (deviceTypeOf d) then enhanceCisco (enhanceBase d)
  else enhanceBase d

theorem dictGet_set_ne (d : ParamMap) (kk k : String) (v : PVal) (h : k ≠ kk) :
    dictGet (dictSet d kk v) k = dictGet d k := by
  induction d with
  | nil =>
    simp only [dictSet, dictGet]
    rw [if_neg (Ne.symm h)]
  | cons p rest ih =>
    obtain ⟨k3, v3⟩ := p
    by_cases hk : k3 = kk
    · subst hk
      simp only [dictSet, if_pos rfl, dictGet]
      rw [if_neg (Ne.symm h), if_neg (Ne.symm h)]
    · simp only [dictSet, if_neg hk, dictGet]
      by_cases hk2 : k3 = k
      · rw [if_pos hk2, if_pos hk2]
      · rw [if_neg hk2, if_neg hk2, ih]

theorem dictGet_append_single (d : ParamMap) (kk k : String) (v : PVal) (h : k ≠ kk) :
    dictGet (d ++ [(kk, v)]) k = dictGet d k := by
  induction d with
  | nil =>
    simp only [List.nil_append, dictGet]
    rw [if_neg (Ne.symm h)]
  | cons p rest ih =>
    obtain ⟨k3, v3⟩ := p
    by_cases hk : k3 = k
    · simp only [List.cons_append, dictGet, if_pos hk]
    · simp only [List.cons_append, dictGet, if_neg hk]
      exact ih

theorem dictGet_setdefault_ne (d : ParamMap) (kk k : String) (v : PVal) (h : k ≠ kk) :
    dictGet (dictSetdefault d kk v) k = dictGet d k := by
  unfold dictSetdefault
  split
  · rfl
  · exact dictGet_append_single d kk k v h

theorem dictGet_pop_ne (d : ParamMap) (kk k : String) (h : k ≠ kk) :
    dictGet (dictPop d kk) k = dictGet d k := by
  induction d with
  | nil => rfl
  | cons p rest ih =>
    obtain ⟨k3, v3⟩ := p
    by_cases hk : k3 = kk
    · subst hk
      have h2 : ¬ k3 = k := fun hc => h hc.symm
      simp only [dictPop] at ih ⊢
      simp [List.filter_cons, dictGet, h2, ih]
    · have h3 : (k3 != kk) = true := by simp [hk]
      simp only [dictPop] at ih ⊢
      simp only [List.filter_cons, h3, if_true, dictGet]
      by_cases hk2 : k3 = k
      · rw [if_pos hk2, if_pos hk2]
      · rw [if_neg hk2, if_neg hk2]
        exact ih

theorem enhanceBase_preserves (d : ParamMap) (k : String) (v : PVal)
    (h1 : k ≠ "timeout") (h2 : k ≠ "conn_timeout") (h3 : k ≠ "fast_cli")
    (h4 : k ≠ "global_delay_factor") (h5 : k ≠ "session_log")
    (hg : dictGet d k = some v) :
    dictGet (enhanceBase d) k = some v := by
  have h4g : dictGet (dictSetdefault (dictSetdefault (dictSetdefault
      (dictSetdefault d "timeout" (PVal.pInt 20)) "conn_timeout" (PVal.pInt 10))
      "fast_cli" (PVal.pBool true)) "global_delay_factor" (PVal.pTenths 5)) k
      = some v := by
    rw [dictGet_setdefault_ne _ _ _ _ h4, dictGet_setdefault_ne _ _ _ _ h3,
      dictGet_setdefault_ne _ _ _ _ h2, dictGet_setdefault_ne _ _ _ _ h1, hg]
  simp only [enhanceBase]
  split
  · exact h4g
  · rw [dictGet_pop_ne _ _ _ h5]
    exact h4g

theorem enhanceHuawei_preserves (d : ParamMap) (k : String) (v : PVal)
    (h3 : k ≠ "fast_cli") (h4 : k ≠ "global_delay_factor") (h6 : k ≠ "secret")
    (hg : dictGet d k = some v) :
    dictGet (enhanceHuawei d) k = some v := by
  have h7g : dictGet (dictSet (dictSetdefault d "global_delay_factor"
      (PVal.pTenths 10)) "fast_cli" (PVal.pBool false)) k = some v := by
    rw [dictGet_set_ne _ _ _ _ h3, dictGet_setdefault_ne _ _ _ _ h4, hg]
  simp only [enhanceHuawei]
  split
  · split
    · rw [dictGet_set_ne _ _ _ _ h6]
      exact h7g
    · exact h7g
  · exact h7g

theorem enhanceCisco_preserves (d : ParamMap) (k : String) (v : PVal)
    (h3 : k ≠ "fast_cli") (h4 : k ≠ "global_delay_factor")
    (hg : dictGet d k = some v) :
    dictGet (enhanceCisco d) k = some v := by
  unfold enhanceCisco
  rw [dictGet_setdefault_ne _ _ _ _ h3, dictGet_setdefault_ne _ _ _ _ h4, hg]

/-- C9 counterexample: constructing a NetworkDeviceManager mutates the
descriptor map supplied by the caller.  The empty descriptor gains the four default timing
keys, and for a Huawei device type a caller-supplied fast_cli value is
overwritten with False, refuting the claim that the map holds exactly its
prior keys and values. -/
theorem enhance_params_mutates :
    enhanceConnectionParams []
      = [("timeout", PVal.pInt 20), ("conn_timeout", PVal.pInt 10),
          ("fast_cli", PVal.pBool true), ("global_delay_factor", PVal.pTenths 5)] ∧
    enhanceConnectionParams [] ≠ [] ∧
    dictGet (enhanceConnectionParams
        [("device_type", PVal.pStr "huawei_vrpv8"), ("fast_cli", PVal.pBool true)])
        "fast_cli"
      = some (PVal.pBool false) := by
  refine ⟨by decide, by decide, by decide⟩

/-- C9 as amended: the constructor aliases and mutates the descriptor
supplied by the caller: it fills in absent defaults for timeout, conn_timeout, fast_cli
and global_delay_factor, removes session_log unless debug_mode is truthy,
and on the Huawei branch forces fast_cli to False and may copy password into
secret; every key outside those six keeps exactly the value the caller
supplied. -/
theorem enhance_params_preserves (d : ParamMap) (k : String) (v : PVal)
    (h1 : k ≠ "timeout") (h2 : k ≠ "conn_timeout") (h3 : k ≠ "fast_cli")
    (h4 : k ≠ "global_delay_factor") (h5 : k ≠ "session_log") (h6 : k ≠ "secret")
    (hg : dictGet d k = some v) :
    dictGet (enhanceConnectionParams d) k = some v := by
  unfold enhanceConnectionParams
  have hb := enhanceBase_preserves d k v h1 h2 h3 h4 h5 hg
  split
  · exact enhanceHuawei_preserves _ k v h3 h4 h6 hb
  · split
    · exact enhanceCisco_preserves _ k v h3 h4 hb
    · exact hb

/-- Witness for C9 as amended: the host entry of a Huawei descriptor
survives construction unchanged. -/
theorem enhance_params_preserves_witness :
    dictGet (enhanceConnectionParams
        [("device_type", PVal.pStr "huawei"), ("host", PVal.pStr "10.0.0.1"),
          ("password", PVal.pStr "pw")]) "host"
      = some (PVal.pStr "10.0.0.1") :=
  enhance_params_preserves
    [("device_type", PVal.pStr "huawei"), ("host", PVal.pStr "10.0.0.1"),
      ("password", PVal.pStr "pw")]
    "host" (PVal.pStr "10.0.0.1")
    (by decide) (by decide) (by decide) (by decide) (by decide) (by decide)
    (by decide)
